import Mathlib

/-!
Shallow embedding of the DeepSoul threat-analysis dashboard's core
reconciliation / polling / relay logic, together with theorems checking the
natural-language specification against it.

Sources embedded:
* the threat-data merge effect and `calculateProgress` of the integrated
  dashboard component;
* the `refetchInterval` decision of the `useExecutionStatus` polling hook;
* `getExecutionStatus` of the API service layer;
* the callback relay server (`app.post('/callback')`, `app.get('/status')`).

JavaScript numbers are modelled as `Nat` where only integral values occur and
as `ℚ` where the code divides; JavaScript `undefined` optional fields are
`Option`; JavaScript string truthiness (`x || d`, `!!x`, where the empty
string is falsy) is modelled explicitly.
-/

namespace DeepSoul

/-- One classified network-traffic event, mirroring the `ThreatData`
interface of `types/threat-analysis.ts` (field names sanitised to Lean
identifiers; the quoted CSV-style keys become snake_case). -/
structure ThreatData where
  timestamp : String := ""
  source_ip_address : String := ""
  destination_ip_address : String := ""
  source_port : String := ""
  destination_port : String := ""
  protocol : String := ""
  packet_length : String := ""
  packet_type : String := ""
  traffic_type : String := ""
  payload_data : String := ""
  malware_indicators : String := ""
  anomaly_scores : String := ""
  attack_type : String := ""
  attack_signature : String := ""
  action_taken : String := ""
  severity_level : String := ""
  log_source : String := ""
  user_information : String := ""
  device_information : String := ""
  network_segment : String := ""
  geo_location_data : String := ""
  proxy_information : String := ""
  firewall_logs : String := ""
  abuse_confidence_score : Option Nat := none
  consensus_classification : Option String := none
  consensus_confidence : Option Nat := none
  enrichment_method : Option String := none
  escalation_priority : Option String := none
  final_risk_score : Option Nat := none
  ip_reputation_score : Option Nat := none
  is_malicious : Option Bool := none
  vt_malicious : Option Nat := none
  batch_number_meta : Option Nat := none
  batch_total_meta : Option Nat := none
  global_index_meta : Option Nat := none
  unique_id_meta : Option String := none
  deriving DecidableEq, Repr, Inhabited

/-- Summary statistics (`ThreatSummary` in `types/threat-analysis.ts`). -/
structure ThreatSummary where
  total_items : Nat := 0
  true_positives : Nat := 0
  false_positives : Nat := 0
  critical : Nat := 0
  high : Nat := 0
  medium : Nat := 0
  low : Nat := 0
  deriving DecidableEq, Repr, Inhabited

/-- Workflow configuration (`WorkflowConfig`). -/
structure WorkflowConfig where
  csv_path : Option String := none
  callback_url : Option String := none
  batch_size : Nat
  max_items : Nat
  deriving DecidableEq, Repr

/-- Execution status as seen by the frontend (`ExecutionStatus` in
`types/threat-analysis.ts`); `status` is one of the strings
"not_found", "processing", "completed". -/
structure ExecutionStatus where
  found : Bool
  executionId : String
  startTime : Option String := none
  completedTime : Option String := none
  batchesReceived : Option Nat := none
  finalSummary : Option ThreatSummary := none
  allResults : Option (List ThreatData) := none
  totalResultsCount : Option Nat := none
  progress : ℚ
  status : String
  deriving DecidableEq, Repr

/-- The threat-data merge effect of the integrated dashboard: given the
current query data `executionStatus` and the previously stored collection
`prevData`, produce the new stored collection together with the "changed"
signal (the branch that fires `flushSync`, the first-batch flag and the
force-update counter).  The effect body reads
`if (executionStatus?.allResults && executionStatus.allResults.length > 0)`
and inside `setThreatData` replaces `prevData` by a copy of
`executionStatus.allResults` exactly when `newLength !== currentLength`. -/
def mergeThreatData (executionStatus : Option ExecutionStatus)
    (prevData : List ThreatData) : List ThreatData × Bool :=
  match executionStatus with
  | none => (prevData, false)
  | some es =>
    match es.allResults with
    | none => (prevData, false)
    | some newResults =>
      if 0 < newResults.length then
        if newResults.length ≠ prevData.length then (newResults, true)
        else (prevData, false)
      else (prevData, false)

/-- The stored collection after a merge (first component of
`mergeThreatData`). -/
def mergeData (executionStatus : Option ExecutionStatus)
    (prevData : List ThreatData) : List ThreatData :=
  (mergeThreatData executionStatus prevData).1

/-- The `refetchInterval` callback of `useExecutionStatus`:
`if (!data || data.status === 'completed' || !data.found) return false;`
and otherwise the configured interval.  `none` models returning `false`
(stop polling); `some n` models returning the interval `n`. -/
def refetchDecision (data : Option ExecutionStatus)
    (refetchInterval : Nat) : Option Nat :=
  match data with
  | none => none
  | some d =>
    if d.status = "completed" ∨ d.found = false then none
    else some refetchInterval

/-- The hook's default polling interval (`refetchInterval = 1000`). -/
def defaultRefetchInterval : Nat := 1000

/-- `calculateProgress` of the integrated dashboard, on exact rationals:
`completed` forces 100; otherwise
`min(max(resultsReceived/expectedTotal × 100,
         batchesReceived/ceil(max_items/batch_size) × 100), 99)`. -/
def calculateProgress (executionStatus : Option ExecutionStatus)
    (config : WorkflowConfig) : ℚ :=
  match executionStatus with
  | none => 0
  | some es =>
    if es.status = "completed" then 100
    else
      let resultsReceived : ℚ := ((es.allResults.getD []).length : ℚ)
      let expectedTotal : ℚ := (config.max_items : ℚ)
      let resultsProgress : ℚ := resultsReceived / expectedTotal * 100
      let expectedBatches : ℚ :=
        ((Int.ceil ((config.max_items : ℚ) / (config.batch_size : ℚ))) : ℚ)
      let batchProgress : ℚ :=
        ((es.batchesReceived.getD 0 : ℚ)) / expectedBatches * 100
      min (max resultsProgress batchProgress) 99

/-- The dashboard merges a whole run by folding the merge effect over the
sequence of received snapshots; `mergeTrace` records the stored collection
after each merge. -/
def mergeTrace (prevData : List ThreatData) :
    List ExecutionStatus → List (List ThreatData)
  | [] => []
  | es :: rest =>
    let next := mergeData (some es) prevData
    next :: mergeTrace next rest

/-- JavaScript truthiness of an optional string: `undefined` and the empty
string are falsy (`!!x`, `x || d`). -/
def jsTruthyStr (x : Option String) : Bool :=
  match x with
  | none => false
  | some s => s ≠ ""

/-- JavaScript `x || d` on an optional string. -/
def jsOrStr (x : Option String) (d : String) : String :=
  match x with
  | none => d
  | some s => if s = "" then d else s

/-- One entry of the relay's `/status` response (the element type of
`AllExecutionsResponse.executions` in `types/threat-analysis.ts`). -/
structure ExecutionRecord where
  execution_id : String
  start_time : String
  completed_time : Option String := none
  batches_received : Nat
  final_summary : Option ThreatSummary := none
  all_results : Option (List ThreatData) := none
  total_results_count : Option Nat := none
  deriving DecidableEq, Repr

/-- The relay's `/status` response (`AllExecutionsResponse`). -/
structure AllExecutionsResponse where
  total_executions : Nat
  executions : List ExecutionRecord
  timestamp : String
  deriving DecidableEq, Repr

/-- `getExecutionStatus` of the API service: fetches `/status`, finds the
execution with the requested id, and maps it to an `ExecutionStatus`;
`not_found` with progress 0 when absent, `completed` with progress 100
exactly when `!!execution.completed_time`. -/
def getExecutionStatus (executionId : String)
    (data : AllExecutionsResponse) : ExecutionStatus :=
  match data.executions.find? (fun e => e.execution_id = executionId) with
  | none =>
    { found := false
      executionId := executionId
      status := "not_found"
      progress := 0 }
  | some execution =>
    let isCompleted := jsTruthyStr execution.completed_time
    { found := true
      executionId := execution.execution_id
      startTime := some execution.start_time
      completedTime := execution.completed_time
      batchesReceived := some execution.batches_received
      finalSummary := execution.final_summary
      allResults := some (execution.all_results.getD [])
      totalResultsCount := some (execution.total_results_count.getD 0)
      progress := if isCompleted then 100 else 0
      status := if isCompleted then "completed" else "processing" }

/-- A callback event body as posted by the workflow engine to
`POST /callback` (all fields optional: the relay reads them defensively). -/
structure CallbackEvent where
  execution_id : Option String := none
  status : Option String := none
  workflow_id : Option String := none
  batch_number : Option Nat := none
  total_batches : Option Nat := none
  progress_percent : Option Nat := none
  summary : Option ThreatSummary := none
  batch_results : Option (List ThreatData) := none
  total_items : Option Nat := none
  timestamp : Option String := none
  deriving DecidableEq, Repr

/-- One element of an execution entry's `batches` array in the relay. -/
structure BatchInfo where
  batchNumber : Option Nat := none
  totalBatches : Option Nat := none
  progress : Nat := 0
  summary : Option ThreatSummary := none
  batch_results : List ThreatData := []
  timestamp : Option String := none
  deriving DecidableEq, Repr

/-- The relay's per-execution record (the value stored in the
`executions` Map of the callback server). -/
structure ExecEntry where
  startTime : String
  batches : List BatchInfo := []
  totalItems : Nat := 0
  allResults : Option (List ThreatData) := none
  completedTime : Option String := none
  finalSummary : Option ThreatSummary := none
  deriving DecidableEq, Repr

/-- The relay's `executions` Map, as an insertion-ordered association
list with unique keys (JavaScript `Map` semantics). -/
abbrev RelayState : Type := List (String × ExecEntry)

/-- `executions.get(id)` / `executions.has(id)`. -/
def lookupEntry (id : String) : RelayState → Option ExecEntry
  | [] => none
  | (k, v) :: rest => if k = id then some v else lookupEntry id rest

/-- In-place mutation of the entry stored under `id` (first match). -/
def updateEntry (id : String) (f : ExecEntry → ExecEntry) :
    RelayState → RelayState
  | [] => []
  | (k, v) :: rest =>
    if k = id then (k, f v) :: rest else (k, v) :: updateEntry id f rest

/-- The event's execution id after defaulting
(`data.execution_id || 'unknown'`). -/
def eventId (data : CallbackEvent) : String :=
  jsOrStr data.execution_id "unknown"

/-- The event's status after defaulting (`data.status || 'unknown'`). -/
def eventStatus (data : CallbackEvent) : String :=
  jsOrStr data.status "unknown"

/-- The entry-creation step of `app.post('/callback')`:
`if (!executions.has(executionId)) executions.set(executionId, {...})`. -/
def ensureEntry (now : String) (executionId : String)
    (executions : RelayState) : RelayState :=
  if (lookupEntry executionId executions).isSome then executions
  else executions ++ [(executionId, { startTime := now })]

/-- The body of `app.post('/callback')`: default the id and status, create
the execution entry if absent (start time = receipt time `now`), then
dispatch on the status: `batch_completed` pushes a `BatchInfo` and appends
`batch_results` to `allResults` (initialising it to `[]` first);
`completed` records the completion time and final summary; any other
status only logs. -/
def receive (now : String) (data : CallbackEvent)
    (executions : RelayState) : RelayState :=
  let executionId := eventId data
  let status := eventStatus data
  let executions := ensureEntry now executionId executions
  if status = "batch_completed" then
    updateEntry executionId (fun execution =>
      let execution :=
        { execution with
          batches := execution.batches ++
            ([{ batchNumber := data.batch_number,
                totalBatches := data.total_batches,
                progress := data.progress_percent.getD 0,
                summary := data.summary,
                batch_results := data.batch_results.getD [],
                timestamp := data.timestamp }] : List BatchInfo) }
      let allResults := execution.allResults.getD []
      match data.batch_results with
      | some rs => { execution with allResults := some (allResults ++ rs) }
      | none => { execution with allResults := some allResults }) executions
  else if status = "completed" then
    updateEntry executionId (fun execution =>
      { execution with
        completedTime := some now
        finalSummary := data.summary }) executions
  else executions

/-- The relay state after a sequence of callback events, each paired with
its receipt timestamp, starting from the empty Map. -/
def relayRun (events : List (String × CallbackEvent)) : RelayState :=
  events.foldl (fun s p => receive p.1 p.2 s) []

/-- The acknowledgment sent by `POST /callback`:
`res.status(200).json({status:'received', ...})`. -/
structure CallbackAck where
  httpStatus : Nat
  status : String
  message : String
  execution_id : String
  timestamp : String
  deriving DecidableEq, Repr

/-- The acknowledgment for one event received at time `now`. -/
def callbackAck (now : String) (data : CallbackEvent) : CallbackAck :=
  { httpStatus := 200
    status := "received"
    message := "Callback processed successfully"
    execution_id := eventId data
    timestamp := now }

/-- The body of `app.get('/status')`: list the Map's entries in insertion
order, with `batches_received = batches.length`,
`all_results = allResults || []` and
`total_results_count = (allResults || []).length`. -/
def statusResponse (executions : RelayState) : List ExecutionRecord :=
  executions.map (fun p =>
    { execution_id := p.1
      start_time := p.2.startTime
      completed_time := p.2.completedTime
      batches_received := p.2.batches.length
      final_summary := p.2.finalSummary
      all_results := some (p.2.allResults.getD [])
      total_results_count := some (p.2.allResults.getD []).length })

/-- The accumulated results of the execution `id` in relay state `s`
(empty when the entry is absent or its `allResults` is uninitialised). -/
def allResultsAt (s : RelayState) (id : String) : List ThreatData :=
  match lookupEntry id s with
  | none => []
  | some e => e.allResults.getD []

/-- The number of batches recorded for execution `id` in relay state `s`. -/
def batchesAt (s : RelayState) (id : String) : Nat :=
  match lookupEntry id s with
  | none => 0
  | some e => e.batches.length

/-- The final summary recorded for execution `id` in relay state `s`. -/
def finalSummaryAt (s : RelayState) (id : String) : Option ThreatSummary :=
  match lookupEntry id s with
  | none => none
  | some e => e.finalSummary

/-- Whether a timestamped event is a `batch_completed` event for `id`. -/
def isBatchFor (id : String) (p : String × CallbackEvent) : Bool :=
  eventId p.2 = id && eventStatus p.2 = "batch_completed"

/-- The results carried by a timestamped event
(`data.batch_results || []`). -/
def eventResults (p : String × CallbackEvent) : List ThreatData :=
  p.2.batch_results.getD []

/-- The length of a snapshot's result list
(`executionStatus.allResults?.length || 0`). -/
def snapLen (es : ExecutionStatus) : Nat :=
  (es.allResults.getD []).length

/-- A sample threat record (all fields at their defaults). -/
def oneThreat : ThreatData := {}

/-- A sample in-flight snapshot carrying the result list `rs`. -/
def procSnap (rs : List ThreatData) : ExecutionStatus :=
  { found := true
    executionId := "exec-A"
    allResults := some rs
    batchesReceived := some rs.length
    progress := 0
    status := "processing" }

/-- A sample completed snapshot carrying the result list `rs`. -/
def doneSnap (rs : List ThreatData) : ExecutionStatus :=
  { found := true
    executionId := "exec-A"
    allResults := some rs
    batchesReceived := some rs.length
    progress := 100
    status := "completed" }

/-- C1 counterexample: a snapshot whose non-empty `all_results` list is
strictly shorter than the stored collection does NOT keep the larger stored
collection — the merge replaces the stored two-element collection by the
incoming one-element list, shrinking the visible collection without any
reset. -/
theorem C1_counterexample :
    mergeThreatData (some (procSnap [oneThreat])) [oneThreat, oneThreat]
      = ([oneThreat], true) ∧
    ([oneThreat] : List ThreatData).length
      < ([oneThreat, oneThreat] : List ThreatData).length := by
  exact ⟨rfl, by decide⟩

/-- C1 (amended): when a snapshot arrives with an `all_results` list
strictly shorter than the stored collection, the merge keeps the stored
(larger) collection only when the incoming list is empty; an incoming
non-empty shorter list replaces the stored collection wholesale, shrinking
the visible collection. -/
theorem C1_amended (es : ExecutionStatus) (prev rs : List ThreatData)
    (hrs : es.allResults = some rs) (hlt : rs.length < prev.length) :
    mergeThreatData (some es) prev =
      if rs.length = 0 then (prev, false) else (rs, true) := by
  have hne : rs.length ≠ prev.length := Nat.ne_of_lt hlt
  by_cases h0 : rs.length = 0
  · simp [mergeThreatData, hrs, h0]
  · have hpos : 0 < rs.length := Nat.pos_of_ne_zero h0
    simp [mergeThreatData, hrs, h0, hpos, hne]

/-- C1 (amended) witness: concrete instance with a stored collection of
length two and an incoming snapshot of length one. -/
theorem C1_amended_witness :
    ([oneThreat] : List ThreatData).length
      < ([oneThreat, oneThreat] : List ThreatData).length ∧
    mergeThreatData (some (procSnap [oneThreat])) [oneThreat, oneThreat]
      = ([oneThreat], true) := by
  refine ⟨by decide, ?_⟩
  have h := C1_amended (procSnap [oneThreat]) [oneThreat, oneThreat]
    [oneThreat] rfl (by decide)
  simpa using h

/-- C7: the merge is idempotent — merging the identical snapshot a second
time in a row signals `changed = false` and leaves the stored collection
exactly identical to the state after the first merge. -/
theorem C7_idempotent (es : ExecutionStatus) (prev : List ThreatData) :
    mergeThreatData (some es) (mergeData (some es) prev)
      = (mergeData (some es) prev, false) := by
  cases hrs : es.allResults with
  | none => simp [mergeData, mergeThreatData, hrs]
  | some rs =>
    by_cases h0 : 0 < rs.length
    · by_cases hne : rs.length = prev.length
      · simp [mergeData, mergeThreatData, hrs, h0, hne]
      · simp [mergeData, mergeThreatData, hrs, h0, hne]
    · simp [mergeData, mergeThreatData, hrs, h0]

/-- The example snapshot of the spec's scenario: `batches_received = 2`,
`all_results.length = 100`, still processing. -/
def exampleSnap : ExecutionStatus :=
  { found := true
    executionId := "exec-A"
    allResults := some (List.replicate 100 oneThreat)
    batchesReceived := some 2
    progress := 0
    status := "processing" }

/-- The example configuration of the spec's scenario:
`max_items = 200`, `batch_size = 50`. -/
def exampleConfig : WorkflowConfig :=
  { batch_size := 50, max_items := 200 }

/-- C3: with `expected_total = max_items > 0` and
`expected_batches = ceil(max_items / batch_size) > 0`, `calculateProgress`
returns `min(99, max(results_received / expected_total,
batches_received / expected_batches) × 100)` while the status is
"processing" — a value in `[0, 99]` — and exactly `100` when the status is
"completed"; on the spec's example (`max_items = 200`, `batch_size = 50`,
`batches_received = 2`, 100 results) it returns `50`. -/
theorem C3_progress (es : ExecutionStatus) (config : WorkflowConfig)
    (hT : 0 < config.max_items)
    (hB : 0 < Int.ceil ((config.max_items : ℚ) / (config.batch_size : ℚ)))
    (hr : (es.allResults.getD []).length ≤ config.max_items)
    (hb : ((es.batchesReceived.getD 0 : Nat) : ℤ)
      ≤ Int.ceil ((config.max_items : ℚ) / (config.batch_size : ℚ))) :
    (es.status = "processing" →
      calculateProgress (some es) config
        = min 99
            (max (((es.allResults.getD []).length : ℚ) / (config.max_items : ℚ))
              ((es.batchesReceived.getD 0 : ℚ)
                / ((Int.ceil ((config.max_items : ℚ) / (config.batch_size : ℚ))) : ℚ))
              * 100) ∧
      0 ≤ calculateProgress (some es) config ∧
      calculateProgress (some es) config ≤ 99) ∧
    (es.status = "completed" → calculateProgress (some es) config = 100) ∧
    calculateProgress (some exampleSnap) exampleConfig = 50 := by
  have hB' : (0 : ℚ)
      ≤ ((Int.ceil ((config.max_items : ℚ) / (config.batch_size : ℚ))) : ℚ) := by
    exact_mod_cast hB.le
  refine ⟨fun hs => ?_, fun hs => ?_, ?_⟩
  · have hne : es.status ≠ "completed" := by rw [hs]; decide
    have hval : calculateProgress (some es) config
        = min (max ((((es.allResults.getD []).length : ℚ) / (config.max_items : ℚ)) * 100)
            (((es.batchesReceived.getD 0 : Nat) : ℚ)
              / ((Int.ceil ((config.max_items : ℚ) / (config.batch_size : ℚ))) : ℚ) * 100))
            99 := by
      simp [calculateProgress, hne]
    refine ⟨?_, ?_, ?_⟩
    · rw [hval, min_comm]
      congr 1
      rw [max_mul_of_nonneg _ _ (by norm_num : (0 : ℚ) ≤ 100)]
    · rw [hval]
      have h1 : (0 : ℚ)
          ≤ (((es.allResults.getD []).length : ℚ) / (config.max_items : ℚ)) * 100 := by
        positivity
      exact le_min (le_max_of_le_left h1) (by norm_num)
    · rw [hval]
      exact min_le_right _ _
  · simp [calculateProgress, hs]
  · have hs : ("processing" = "completed") = False := by decide
    norm_num [calculateProgress, exampleSnap, exampleConfig, hs]

/-- C3 witness: the hypotheses and the conclusion of `C3_progress` at the
spec's concrete example scenario. -/
theorem C3_progress_witness :
    calculateProgress (some exampleSnap) exampleConfig = 50 ∧
    0 ≤ calculateProgress (some exampleSnap) exampleConfig ∧
    calculateProgress (some exampleSnap) exampleConfig ≤ 99 ∧
    calculateProgress (some (doneSnap [])) exampleConfig = 100 := by
  have h := C3_progress exampleSnap exampleConfig (by norm_num [exampleConfig])
    (by norm_num [exampleConfig])
    (by norm_num [exampleSnap, exampleConfig])
    (by norm_num [exampleSnap, exampleConfig])
  have h' := C3_progress (doneSnap []) exampleConfig (by norm_num [exampleConfig])
    (by norm_num [exampleConfig])
    (by norm_num [doneSnap, exampleConfig])
    (by norm_num [doneSnap, exampleConfig])
  exact ⟨h.2.2, (h.1 rfl).2.1, (h.1 rfl).2.2, h'.2.1 rfl⟩

/-- C4 counterexample: after a snapshot with status "completed" and one
result is merged, merging a later snapshot for the same execution id that
carries two results DOES alter the stored collection — the merge effect
performs no completion check. -/
theorem C4_counterexample :
    (doneSnap [oneThreat]).status = "completed" ∧
    mergeData (some (doneSnap [oneThreat, oneThreat]))
        (mergeData (some (doneSnap [oneThreat])) [])
      ≠ mergeData (some (doneSnap [oneThreat])) [] := by
  exact ⟨rfl, by decide⟩

/-- C4 (amended): once a snapshot with status "completed" is held, the
polling controller's interval decision is "stop", so no further query is
scheduled for that execution id; the merge itself, however, performs no
completion check — if a subsequent snapshot with a different non-zero
result count is nonetheless merged (e.g. by a window-focus refetch), it
replaces the stored collection. -/
theorem C4_amended (es es' : ExecutionStatus) (prev rs : List ThreatData)
    (i : Nat) (hdone : es.status = "completed")
    (hrs : es'.allResults = some rs) (hpos : 0 < rs.length)
    (hne : rs.length ≠ (mergeData (some es) prev).length) :
    refetchDecision (some es) i = none ∧
    mergeData (some es') (mergeData (some es) prev) = rs := by
  constructor
  · simp [refetchDecision, hdone]
  · generalize mergeData (some es) prev = d1 at hne ⊢
    simp [mergeData, mergeThreatData, hrs, hpos, hne]

/-- C4 (amended) witness: a completed one-result snapshot followed by a
two-result snapshot at the default interval. -/
theorem C4_amended_witness :
    refetchDecision (some (doneSnap [oneThreat])) defaultRefetchInterval = none ∧
    mergeData (some (doneSnap [oneThreat, oneThreat]))
        (mergeData (some (doneSnap [oneThreat])) [])
      = [oneThreat, oneThreat] := by
  exact C4_amended (doneSnap [oneThreat]) (doneSnap [oneThreat, oneThreat])
    [] [oneThreat, oneThreat] defaultRefetchInterval rfl rfl (by decide)
    (by decide)

/-- A sample snapshot whose execution id is unknown to the relay. -/
def notFoundSnap : ExecutionStatus :=
  { found := false
    executionId := "exec-A"
    progress := 0
    status := "not_found" }

/-- C5: the polling controller's interval decision returns "stop" (`none`)
if and only if there is no data yet, the status is "completed", or `found`
is `false`; in every other case it returns the configured interval
(`1000` ms by default); in particular a snapshot with `found = false`
stops all further scheduling. -/
theorem C5_refetch (data : Option ExecutionStatus) (i : Nat) :
    (refetchDecision data i = none ↔
      data = none ∨
      ∃ d, data = some d ∧ (d.status = "completed" ∨ d.found = false)) ∧
    (∀ d, data = some d → d.found = true → d.status ≠ "completed" →
      refetchDecision data i = some i) ∧
    (∀ d, data = some d → d.found = false → refetchDecision data i = none) ∧
    defaultRefetchInterval = 1000 := by
  cases data with
  | none => simp [refetchDecision, defaultRefetchInterval]
  | some d =>
    refine ⟨?_, ?_, ?_, rfl⟩
    · by_cases h : d.status = "completed" ∨ d.found = false
      · simp [refetchDecision, h]
      · simp only [refetchDecision, if_neg h]
        push_neg at h
        simp [h.1, h.2]
    · rintro d' ⟨rfl⟩ hf hs
      simp [refetchDecision, hs, hf]
    · rintro d' ⟨rfl⟩ hf
      simp [refetchDecision, hf]

/-- C5 witness: a `found = false` snapshot stops scheduling; a found,
processing snapshot continues at the default interval. -/
theorem C5_refetch_witness :
    refetchDecision (some notFoundSnap) defaultRefetchInterval = none ∧
    refetchDecision (some (procSnap [oneThreat])) defaultRefetchInterval
      = some defaultRefetchInterval := by
  constructor
  · exact (C5_refetch (some notFoundSnap) defaultRefetchInterval).2.2.1
      notFoundSnap rfl rfl
  · exact (C5_refetch (some (procSnap [oneThreat])) defaultRefetchInterval).2.1
      (procSnap [oneThreat]) rfl rfl (by decide)

/-- Helper for C6: starting from a stored collection no longer than the
first snapshot's result list, the trace of stored lengths equals the trace
of snapshot lengths, provided the snapshot lengths are non-decreasing. -/
theorem mergeTrace_map_length (snaps : List ExecutionStatus) :
    ∀ prev : List ThreatData,
    List.Chain' (fun a b => snapLen a ≤ snapLen b) snaps →
    (∀ s, snaps.head? = some s → prev.length ≤ snapLen s) →
    (mergeTrace prev snaps).map List.length = snaps.map snapLen := by
  induction snaps with
  | nil => intro prev _ _; rfl
  | cons s rest ih =>
    intro prev hchain hhead
    have hple : prev.length ≤ snapLen s := hhead s rfl
    have hnext : (mergeData (some s) prev).length = snapLen s := by
      cases hrs : s.allResults with
      | none =>
        have hz : snapLen s = 0 := by simp [snapLen, hrs]
        have hp : prev.length = 0 := by omega
        simp [mergeData, mergeThreatData, hrs, hz, hp]
      | some rs =>
        have hsl : snapLen s = rs.length := by simp [snapLen, hrs]
        by_cases h0 : 0 < rs.length
        · by_cases hne : rs.length = prev.length
          · simp [mergeData, mergeThreatData, hrs, h0, hne, hsl]
          · simp [mergeData, mergeThreatData, hrs, h0, hne, hsl]
        · have h0' : rs.length = 0 := by omega
          have hp : prev.length = 0 := by omega
          simp [mergeData, mergeThreatData, hrs, h0, hsl, hp, h0']
    have htail : List.Chain' (fun a b => snapLen a ≤ snapLen b) rest :=
      hchain.tail
    have hhead' : ∀ s', rest.head? = some s' →
        (mergeData (some s) prev).length ≤ snapLen s' := by
      intro s' hs'
      rw [hnext]
      exact List.Chain'.rel_head? hchain hs'
    have hcons := ih (mergeData (some s) prev) htail hhead'
    simp only [mergeTrace, List.map_cons, List.cons.injEq]
    exact ⟨hnext, hcons⟩

/-- C6: for a sequence of snapshots with non-decreasing `all_results`
lengths, the stored collection's length after each merge (starting from
the empty collection of a fresh run) equals that snapshot's `all_results`
length, and the lengths are non-decreasing across the trace. -/
theorem C6_monotone (snaps : List ExecutionStatus)
    (hchain : List.Chain' (fun a b => snapLen a ≤ snapLen b) snaps) :
    (mergeTrace [] snaps).map List.length = snaps.map snapLen ∧
    List.Chain' (· ≤ ·) ((mergeTrace [] snaps).map List.length) := by
  have h := mergeTrace_map_length snaps [] hchain
    (by intro s _; exact Nat.zero_le _)
  refine ⟨h, ?_⟩
  rw [h]
  exact List.chain'_map_of_chain' snapLen (fun a b hab => hab) hchain

/-- C6 witness: a growing two-snapshot run (one result, then two). -/
theorem C6_monotone_witness :
    List.Chain' (fun a b => snapLen a ≤ snapLen b)
      [procSnap [oneThreat], procSnap [oneThreat, oneThreat]] ∧
    (mergeTrace [] [procSnap [oneThreat], procSnap [oneThreat, oneThreat]]).map
        List.length
      = [1, 2] := by
  have hchain : List.Chain' (fun a b => snapLen a ≤ snapLen b)
      [procSnap [oneThreat], procSnap [oneThreat, oneThreat]] :=
    List.chain'_pair.mpr (by decide)
  refine ⟨hchain, ?_⟩
  have h := (C6_monotone [procSnap [oneThreat], procSnap [oneThreat, oneThreat]]
    hchain).1
  simpa [snapLen, procSnap] using h

/-- C8: `getExecutionStatus` returns `found = false` with status
"not_found" and progress 0 exactly when no entry of the relay's list has
the requested execution id; otherwise it returns the (first) matching
entry's data with `executionId` equal to the requested id, status
"completed" exactly when that entry carries a completion time — else
status "processing" — and progress 100 exactly when completed.  The
hypothesis `hclean` records that the relay never emits an empty-string
completion timestamp (it only ever writes an ISO timestamp or leaves the
field absent). -/
theorem C8_getStatus (id : String) (data : AllExecutionsResponse)
    (hclean : ∀ e ∈ data.executions, e.completed_time ≠ some "") :
    ((getExecutionStatus id data).found = false ↔
      ∀ e ∈ data.executions, e.execution_id ≠ id) ∧
    ((getExecutionStatus id data).found = false →
      (getExecutionStatus id data).status = "not_found" ∧
      (getExecutionStatus id data).progress = 0) ∧
    ((getExecutionStatus id data).found = true →
      (getExecutionStatus id data).executionId = id) ∧
    (∀ e, data.executions.find? (fun e => e.execution_id = id) = some e →
      ((getExecutionStatus id data).status = "completed" ↔
        e.completed_time.isSome = true) ∧
      (e.completed_time.isSome = false →
        (getExecutionStatus id data).status = "processing") ∧
      ((getExecutionStatus id data).progress = 100 ↔
        (getExecutionStatus id data).status = "completed")) := by
  cases hfind : data.executions.find? (fun e => e.execution_id = id) with
  | none =>
    have hnone : ∀ e ∈ data.executions, e.execution_id ≠ id := by
      intro e he
      have := List.find?_eq_none.mp hfind e he
      simpa using this
    refine ⟨?_, ?_, ?_, ?_⟩
    · refine ⟨fun _ => hnone, fun _ => ?_⟩
      simp [getExecutionStatus, hfind]
    · intro _
      constructor <;> simp [getExecutionStatus, hfind]
    · intro hfound
      exfalso
      simp [getExecutionStatus, hfind] at hfound
    · intro e he
      exact absurd he (by simp)
  | some e =>
    have hmem : e ∈ data.executions := List.mem_of_find?_eq_some hfind
    have hid : e.execution_id = id := by
      have := List.find?_some hfind
      simpa using this
    have htruthy : jsTruthyStr e.completed_time = e.completed_time.isSome := by
      cases hct : e.completed_time with
      | none => simp [jsTruthyStr]
      | some s =>
        have hs : s ≠ "" := by
          intro hcontra
          exact hclean e hmem (by rw [hct, hcontra])
        simp [jsTruthyStr, hs]
    refine ⟨?_, ?_, ?_, ?_⟩
    · constructor
      · intro hfound
        exfalso
        simp [getExecutionStatus, hfind] at hfound
      · intro hall
        exact absurd hid (hall e hmem)
    · intro hfound
      exfalso
      simp [getExecutionStatus, hfind] at hfound
    · intro _
      simp [getExecutionStatus, hfind, hid]
    · intro e' he'
      have : e' = e := by
        injection he' with h
        exact h.symm
      subst this
      cases hcomp : e'.completed_time.isSome with
      | false =>
        refine ⟨?_, ?_, ?_⟩
        · constructor
          · intro hconf
            simp [getExecutionStatus, hfind, htruthy, hcomp] at hconf
          · intro hconf
            exact absurd hconf (by decide)
        · intro _
          simp [getExecutionStatus, hfind, htruthy, hcomp]
        · constructor
          · intro hconf
            simp [getExecutionStatus, hfind, htruthy, hcomp] at hconf
          · intro hconf
            exfalso
            simp [getExecutionStatus, hfind, htruthy, hcomp] at hconf
      | true =>
        refine ⟨?_, ?_, ?_⟩
        · constructor
          · intro _; rfl
          · intro _
            simp [getExecutionStatus, hfind, htruthy, hcomp]
        · intro hconf
          exact absurd hconf (by decide)
        · constructor
          · intro _
            simp [getExecutionStatus, hfind, htruthy, hcomp]
          · intro _
            simp [getExecutionStatus, hfind, htruthy, hcomp]

/-- A sample completed relay record for witnesses. -/
def sampleRecord : ExecutionRecord :=
  { execution_id := "exec-A"
    start_time := "2025-01-01T00:00:00Z"
    completed_time := some "2025-01-01T00:01:00Z"
    batches_received := 2
    all_results := some [oneThreat]
    total_results_count := some 1 }

/-- A sample in-flight relay record (no completion time yet). -/
def processingRecord : ExecutionRecord :=
  { execution_id := "exec-C"
    start_time := "2025-01-01T00:03:00Z"
    completed_time := none
    batches_received := 1
    all_results := some [oneThreat]
    total_results_count := some 1 }

/-- A sample `/status` response holding `sampleRecord` and
`processingRecord`. -/
def sampleResponse : AllExecutionsResponse :=
  { total_executions := 2
    executions := [sampleRecord, processingRecord]
    timestamp := "2025-01-01T00:02:00Z" }

/-- C8 witness: querying an absent id reports not-found, querying the
completed sample record reports status "completed" with progress 100, and
querying the in-flight record reports status "processing". -/
theorem C8_getStatus_witness :
    (getExecutionStatus "exec-B" sampleResponse).found = false ∧
    (getExecutionStatus "exec-B" sampleResponse).status = "not_found" ∧
    (getExecutionStatus "exec-A" sampleResponse).status = "completed" ∧
    (getExecutionStatus "exec-A" sampleResponse).progress = 100 ∧
    (getExecutionStatus "exec-C" sampleResponse).status = "processing" := by
  have hclean : ∀ e ∈ sampleResponse.executions, e.completed_time ≠ some "" := by
    decide
  have hB := C8_getStatus "exec-B" sampleResponse hclean
  have hA := C8_getStatus "exec-A" sampleResponse hclean
  have hC := C8_getStatus "exec-C" sampleResponse hclean
  have hfoundB : (getExecutionStatus "exec-B" sampleResponse).found = false :=
    hB.1.mpr (by decide)
  have hfindA : sampleResponse.executions.find?
      (fun e => e.execution_id = "exec-A") = some sampleRecord := by decide
  have hfindC : sampleResponse.executions.find?
      (fun e => e.execution_id = "exec-C") = some processingRecord := by decide
  have hcomp := hA.2.2.2 sampleRecord hfindA
  have hstat : (getExecutionStatus "exec-A" sampleResponse).status = "completed" :=
    hcomp.1.mpr (by decide)
  have hproc : (getExecutionStatus "exec-C" sampleResponse).status = "processing" :=
    (hC.2.2.2 processingRecord hfindC).2.1 (by decide)
  exact ⟨hfoundB, (hB.2.1 hfoundB).1, hstat, hcomp.2.2.mpr hstat, hproc⟩

/-- Looking a key up in a concatenation tries the left part first. -/
theorem lookupEntry_append (id : String) (s t : RelayState) :
    lookupEntry id (s ++ t)
      = match lookupEntry id s with
        | some v => some v
        | none => lookupEntry id t := by
  induction s with
  | nil => rfl
  | cons p rest ih =>
    obtain ⟨k, v⟩ := p
    by_cases h : k = id
    · simp [lookupEntry, h]
    · simp [lookupEntry, h, ih]

/-- Updating a key rewrites exactly that key's entry. -/
theorem lookupEntry_update_self (id : String) (f : ExecEntry → ExecEntry)
    (s : RelayState) :
    lookupEntry id (updateEntry id f s) = (lookupEntry id s).map f := by
  induction s with
  | nil => rfl
  | cons p rest ih =>
    obtain ⟨k, v⟩ := p
    by_cases h : k = id
    · simp [updateEntry, lookupEntry, h]
    · simp [updateEntry, lookupEntry, h, ih]

/-- Updating one key leaves every other key's entry untouched. -/
theorem lookupEntry_update_ne (id id' : String) (h : id ≠ id')
    (f : ExecEntry → ExecEntry) (s : RelayState) :
    lookupEntry id (updateEntry id' f s) = lookupEntry id s := by
  have h' : ¬(id' = id) := fun hc => h hc.symm
  induction s with
  | nil => rfl
  | cons p rest ih =>
    obtain ⟨k, v⟩ := p
    by_cases hk : k = id'
    · have hki : k ≠ id := by rw [hk]; exact h'
      simp [updateEntry, lookupEntry, hk, hki, h']
    · by_cases hki : k = id
      · simp [updateEntry, lookupEntry, hk, hki, h, h']
      · simp [updateEntry, lookupEntry, hk, hki, ih]

/-- After the entry-creation step, the event's id is present. -/
theorem lookupEntry_ensure_self (now eid : String) (s : RelayState) :
    (lookupEntry eid (ensureEntry now eid s)).isSome = true := by
  unfold ensureEntry
  cases h : lookupEntry eid s with
  | some v => simp [h]
  | none =>
    simp only [h, Option.isSome_none, Bool.false_eq_true, if_false]
    rw [lookupEntry_append]
    simp [h, lookupEntry]

/-- The entry-creation step leaves every other key's entry untouched. -/
theorem lookupEntry_ensure_ne (now eid id : String) (s : RelayState)
    (h : id ≠ eid) :
    lookupEntry id (ensureEntry now eid s) = lookupEntry id s := by
  unfold ensureEntry
  cases hl : lookupEntry eid s with
  | some v => simp [hl]
  | none =>
    simp only [hl, Option.isSome_none, Bool.false_eq_true, if_false]
    rw [lookupEntry_append]
    have h' : ¬(eid = id) := fun hc => h hc.symm
    cases hid : lookupEntry id s with
    | some v => simp
    | none => simp [lookupEntry, h']

/-- The entry-creation step does not change any accumulated results (a
fresh entry has none). -/
theorem allResultsAt_ensure (now eid : String) (s : RelayState)
    (id : String) :
    allResultsAt (ensureEntry now eid s) id = allResultsAt s id := by
  by_cases h : id = eid
  · subst h
    unfold allResultsAt ensureEntry
    cases hl : lookupEntry id s with
    | some v => simp [hl]
    | none =>
      simp only [hl, Option.isSome_none, Bool.false_eq_true, if_false]
      rw [lookupEntry_append]
      simp [hl, lookupEntry]
  · unfold allResultsAt
    rw [lookupEntry_ensure_ne now eid id s h]

/-- The entry-creation step does not change any batch count. -/
theorem batchesAt_ensure (now eid : String) (s : RelayState) (id : String) :
    batchesAt (ensureEntry now eid s) id = batchesAt s id := by
  by_cases h : id = eid
  · subst h
    unfold batchesAt ensureEntry
    cases hl : lookupEntry id s with
    | some v => simp [hl]
    | none =>
      simp only [hl, Option.isSome_none, Bool.false_eq_true, if_false]
      rw [lookupEntry_append]
      simp [hl, lookupEntry]
  · unfold batchesAt
    rw [lookupEntry_ensure_ne now eid id s h]

/-- The entry-creation step does not change any final summary. -/
theorem finalSummaryAt_ensure (now eid : String) (s : RelayState)
    (id : String) :
    finalSummaryAt (ensureEntry now eid s) id = finalSummaryAt s id := by
  by_cases h : id = eid
  · subst h
    unfold finalSummaryAt ensureEntry
    cases hl : lookupEntry id s with
    | some v => simp [hl]
    | none =>
      simp only [hl, Option.isSome_none, Bool.false_eq_true, if_false]
      rw [lookupEntry_append]
      simp [hl, lookupEntry]
  · unfold finalSummaryAt
    rw [lookupEntry_ensure_ne now eid id s h]

/-- The event's entry exists in the entry-creation step's result. -/
theorem exists_lookup_ensure (now eid : String) (s : RelayState) :
    ∃ en, lookupEntry eid (ensureEntry now eid s) = some en := by
  have h := lookupEntry_ensure_self now eid s
  cases hl : lookupEntry eid (ensureEntry now eid s) with
  | none => rw [hl] at h; exact absurd h (by simp)
  | some v => exact ⟨v, rfl⟩

/-- A callback whose status is neither `batch_completed` nor `completed`
only performs the entry-creation step. -/
theorem receive_other (now : String) (e : CallbackEvent) (s : RelayState)
    (h1 : eventStatus e ≠ "batch_completed")
    (h2 : eventStatus e ≠ "completed") :
    receive now e s = ensureEntry now (eventId e) s := by
  simp [receive, h1, h2]

/-- One receive step appends exactly the event's `batch_results` to the
accumulated results of the event's execution id (when the event is a
`batch_completed` event) and changes no other accumulated results. -/
theorem allResultsAt_receive (now : String) (e : CallbackEvent)
    (s : RelayState) (id : String) :
    allResultsAt (receive now e s) id
      = allResultsAt s id ++
        (if isBatchFor id (now, e) then eventResults (now, e) else []) := by
  have hens := allResultsAt_ensure now (eventId e) s id
  by_cases hbc : eventStatus e = "batch_completed"
  · by_cases hid : eventId e = id
    · subst hid
      have hbatch : isBatchFor (eventId e) (now, e) = true := by
        simp [isBatchFor, hbc]
      obtain ⟨en, hen⟩ := exists_lookup_ensure now (eventId e) s
      have hS : allResultsAt s (eventId e) = en.allResults.getD [] := by
        rw [← hens]
        unfold allResultsAt
        rw [hen]
      have hLHS : allResultsAt (receive now e s) (eventId e)
          = en.allResults.getD [] ++ eventResults (now, e) := by
        simp only [receive, hbc, if_pos, reduceIte]
        unfold allResultsAt
        rw [lookupEntry_update_self, hen]
        cases hbr : e.batch_results with
        | none => simp [eventResults, hbr]
        | some rs => simp [eventResults, hbr]
      rw [hLHS, hS, hbatch]
      simp
    · have hbatch : isBatchFor id (now, e) = false := by
        simp [isBatchFor, hid]
      have hLHS : allResultsAt (receive now e s) id
          = allResultsAt (ensureEntry now (eventId e) s) id := by
        simp only [receive, hbc, reduceIte]
        unfold allResultsAt
        rw [lookupEntry_update_ne id (eventId e) (fun hc => hid hc.symm)]
      rw [hLHS, hens, hbatch]
      simp
  · have hbatch : isBatchFor id (now, e) = false := by
      simp [isBatchFor, hbc]
    by_cases hc : eventStatus e = "completed"
    · by_cases hid : eventId e = id
      · subst hid
        obtain ⟨en, hen⟩ := exists_lookup_ensure now (eventId e) s
        have hS : allResultsAt s (eventId e) = en.allResults.getD [] := by
          rw [← hens]
          unfold allResultsAt
          rw [hen]
        have hLHS : allResultsAt (receive now e s) (eventId e)
            = en.allResults.getD [] := by
          simp only [receive, hbc, hc, String.reduceEq, reduceIte]
          unfold allResultsAt
          rw [lookupEntry_update_self, hen]
          simp
        rw [hLHS, hS, hbatch]
        simp
      · have hLHS : allResultsAt (receive now e s) id
            = allResultsAt (ensureEntry now (eventId e) s) id := by
          simp only [receive, hbc, hc, String.reduceEq, reduceIte]
          unfold allResultsAt
          rw [lookupEntry_update_ne id (eventId e) (fun hcon => hid hcon.symm)]
        rw [hLHS, hens, hbatch]
        simp
    · rw [receive_other now e s hbc hc, hens, hbatch]
      simp

/-- One receive step increments the batch count of the event's execution
id exactly when the event is a `batch_completed` event, and changes no
other batch count. -/
theorem batchesAt_receive (now : String) (e : CallbackEvent)
    (s : RelayState) (id : String) :
    batchesAt (receive now e s) id
      = batchesAt s id + (if isBatchFor id (now, e) then 1 else 0) := by
  have hens := batchesAt_ensure now (eventId e) s id
  by_cases hbc : eventStatus e = "batch_completed"
  · by_cases hid : eventId e = id
    · subst hid
      have hbatch : isBatchFor (eventId e) (now, e) = true := by
        simp [isBatchFor, hbc]
      obtain ⟨en, hen⟩ := exists_lookup_ensure now (eventId e) s
      have hS : batchesAt s (eventId e) = en.batches.length := by
        rw [← hens]
        unfold batchesAt
        rw [hen]
      have hLHS : batchesAt (receive now e s) (eventId e)
          = en.batches.length + 1 := by
        simp only [receive, hbc, reduceIte]
        unfold batchesAt
        rw [lookupEntry_update_self, hen]
        cases hbr : e.batch_results with
        | none => simp [hbr]
        | some rs => simp [hbr]
      rw [hLHS, hS, hbatch]
      simp
    · have hbatch : isBatchFor id (now, e) = false := by
        simp [isBatchFor, hid]
      have hLHS : batchesAt (receive now e s) id
          = batchesAt (ensureEntry now (eventId e) s) id := by
        simp only [receive, hbc, reduceIte]
        unfold batchesAt
        rw [lookupEntry_update_ne id (eventId e) (fun hc => hid hc.symm)]
      rw [hLHS, hens, hbatch]
      simp
  · have hbatch : isBatchFor id (now, e) = false := by
      simp [isBatchFor, hbc]
    by_cases hc : eventStatus e = "completed"
    · by_cases hid : eventId e = id
      · subst hid
        obtain ⟨en, hen⟩ := exists_lookup_ensure now (eventId e) s
        have hS : batchesAt s (eventId e) = en.batches.length := by
          rw [← hens]
          unfold batchesAt
          rw [hen]
        have hLHS : batchesAt (receive now e s) (eventId e)
            = en.batches.length := by
          simp only [receive, hbc, hc, String.reduceEq, reduceIte]
          unfold batchesAt
          rw [lookupEntry_update_self, hen]
          simp
        rw [hLHS, hS, hbatch]
        simp
      · have hLHS : batchesAt (receive now e s) id
            = batchesAt (ensureEntry now (eventId e) s) id := by
          simp only [receive, hbc, hc, String.reduceEq, reduceIte]
          unfold batchesAt
          rw [lookupEntry_update_ne id (eventId e) (fun hcon => hid hcon.symm)]
        rw [hLHS, hens, hbatch]
        simp
    · rw [receive_other now e s hbc hc, hens, hbatch]
      simp

/-- Folding a sequence of callback events appends, to any starting
state's accumulated results for `id`, exactly the concatenation of the
`batch_results` of that id's `batch_completed` events, in arrival order. -/
theorem allResultsAt_foldl (events : List (String × CallbackEvent)) :
    ∀ (s : RelayState) (id : String),
    allResultsAt (events.foldl (fun st p => receive p.1 p.2 st) s) id
      = allResultsAt s id
        ++ (events.filter (isBatchFor id)).flatMap eventResults := by
  induction events with
  | nil => intro s id; simp
  | cons p rest ih =>
    intro s id
    rw [List.foldl_cons, ih, allResultsAt_receive]
    cases h : isBatchFor id p with
    | true =>
      have h' : isBatchFor id (p.1, p.2) = true := by
        rw [← h]
      simp [h, h', List.filter_cons, List.append_assoc]
    | false =>
      have h' : isBatchFor id (p.1, p.2) = false := by
        rw [← h]
      simp [h, h', List.filter_cons]

/-- Folding a sequence of callback events adds, to any starting state's
batch count for `id`, exactly the number of that id's `batch_completed`
events. -/
theorem batchesAt_foldl (events : List (String × CallbackEvent)) :
    ∀ (s : RelayState) (id : String),
    batchesAt (events.foldl (fun st p => receive p.1 p.2 st) s) id
      = batchesAt s id + events.countP (isBatchFor id) := by
  induction events with
  | nil => intro s id; simp
  | cons p rest ih =>
    intro s id
    rw [List.foldl_cons, ih, batchesAt_receive]
    cases h : isBatchFor id p with
    | true =>
      have h' : isBatchFor id (p.1, p.2) = true := by
        rw [← h]
      simp [h, h', List.countP_cons]
      omega
    | false =>
      have h' : isBatchFor id (p.1, p.2) = false := by
        rw [← h]
      simp [h, h', List.countP_cons]

/-- C9: the relay's accumulation is append-only and monotone per
execution id — after any event sequence, an id's `all_results` is exactly
the concatenation of the `batch_results` of its `batch_completed` events
in arrival order (so the list after a prefix of the events is a prefix of
the final list), `batches_received` counts exactly those events and is
non-decreasing, and every `/status` entry reports `total_results_count`
equal to the length of its `all_results`. -/
theorem C9_relay (events pre suf : List (String × CallbackEvent))
    (id : String) (hsplit : events = pre ++ suf) :
    allResultsAt (relayRun events) id
      = (events.filter (isBatchFor id)).flatMap eventResults ∧
    batchesAt (relayRun events) id = events.countP (isBatchFor id) ∧
    (∃ t, allResultsAt (relayRun events) id
        = allResultsAt (relayRun pre) id ++ t) ∧
    batchesAt (relayRun pre) id ≤ batchesAt (relayRun events) id ∧
    (∀ r ∈ statusResponse (relayRun events), ∃ rs,
      r.all_results = some rs ∧ r.total_results_count = some rs.length) := by
  have hempty : allResultsAt ([] : RelayState) id = [] := rfl
  have hbempty : batchesAt ([] : RelayState) id = 0 := rfl
  refine ⟨?_, ?_, ?_, ?_, ?_⟩
  · rw [relayRun, allResultsAt_foldl, hempty]
    simp
  · rw [relayRun, batchesAt_foldl, hbempty]
    simp
  · subst hsplit
    rw [relayRun, List.foldl_append]
    exact ⟨_, allResultsAt_foldl suf (relayRun pre) id⟩
  · subst hsplit
    rw [relayRun, relayRun, List.foldl_append,
      batchesAt_foldl suf (List.foldl (fun st p => receive p.1 p.2 st) [] pre) id]
    exact Nat.le_add_right _ _
  · intro r hr
    rw [statusResponse] at hr
    obtain ⟨p, _, rfl⟩ := List.mem_map.mp hr
    exact ⟨p.2.allResults.getD [], rfl, rfl⟩

/-- A sample first `batch_completed` callback event. -/
def sampleBatchEvent : CallbackEvent :=
  { execution_id := some "exec-A"
    status := some "batch_completed"
    batch_number := some 1
    total_batches := some 2
    batch_results := some [oneThreat] }

/-- A sample second `batch_completed` callback event. -/
def sampleBatchEvent2 : CallbackEvent :=
  { execution_id := some "exec-A"
    status := some "batch_completed"
    batch_number := some 2
    total_batches := some 2
    batch_results := some [oneThreat] }

/-- The sample two-batch event sequence. -/
def sampleEvents : List (String × CallbackEvent) :=
  [("t1", sampleBatchEvent), ("t2", sampleBatchEvent2)]

/-- C9 witness: the two-batch sample accumulates both results in order
and counts two batches, extending the one-event prefix state. -/
theorem C9_relay_witness :
    allResultsAt (relayRun sampleEvents) "exec-A" = [oneThreat, oneThreat] ∧
    batchesAt (relayRun sampleEvents) "exec-A" = 2 ∧
    (∃ t, allResultsAt (relayRun sampleEvents) "exec-A"
        = allResultsAt (relayRun [("t1", sampleBatchEvent)]) "exec-A" ++ t) := by
  have h := C9_relay sampleEvents [("t1", sampleBatchEvent)]
    [("t2", sampleBatchEvent2)] "exec-A" rfl
  refine ⟨?_, ?_, h.2.2.1⟩
  · rw [h.1]
    decide
  · rw [h.2.1]
    decide

/-- C10: every callback is acknowledged with HTTP 200 and status
"received"; the event's (defaulted) execution id is registered — the
literal id "unknown" when the body carries no execution id — and an event
with an unrecognized status creates the entry if absent but leaves every
id's batches, accumulated results and final summary unchanged. -/
theorem C10_callback (now : String) (e : CallbackEvent) (s : RelayState) :
    (callbackAck now e).httpStatus = 200 ∧
    (callbackAck now e).status = "received" ∧
    (lookupEntry (eventId e) (receive now e s)).isSome = true ∧
    (e.execution_id = none → eventId e = "unknown") ∧
    (eventStatus e ≠ "batch_completed" → eventStatus e ≠ "completed" →
      ∀ id, batchesAt (receive now e s) id = batchesAt s id ∧
        allResultsAt (receive now e s) id = allResultsAt s id ∧
        finalSummaryAt (receive now e s) id = finalSummaryAt s id) := by
  refine ⟨rfl, rfl, ?_, ?_, ?_⟩
  · obtain ⟨en, hen⟩ := exists_lookup_ensure now (eventId e) s
    by_cases hbc : eventStatus e = "batch_completed"
    · simp only [receive, hbc, String.reduceEq, reduceIte]
      rw [lookupEntry_update_self, hen]
      rfl
    · by_cases hc : eventStatus e = "completed"
      · simp only [receive, hbc, hc, String.reduceEq, reduceIte]
        rw [lookupEntry_update_self, hen]
        rfl
      · rw [receive_other now e s hbc hc, hen]
        rfl
  · intro h
    simp [eventId, jsOrStr, h]
  · intro h1 h2 id
    rw [receive_other now e s h1 h2]
    exact ⟨batchesAt_ensure now (eventId e) s id,
      allResultsAt_ensure now (eventId e) s id,
      finalSummaryAt_ensure now (eventId e) s id⟩

/-- A sample callback event with an unrecognized status. -/
def strangeEvent : CallbackEvent :=
  { execution_id := some "exec-A"
    status := some "mysterious" }

/-- A sample callback event with no execution id at all. -/
def anonymousEvent : CallbackEvent :=
  { status := some "batch_completed"
    batch_results := some [oneThreat] }

/-- C10 witness: an unrecognized-status event is acknowledged, registers
its id with empty accumulators, and an id-less event is registered under
the literal id "unknown". -/
theorem C10_callback_witness :
    (callbackAck "t0" strangeEvent).httpStatus = 200 ∧
    (callbackAck "t0" strangeEvent).status = "received" ∧
    (lookupEntry "exec-A" (receive "t0" strangeEvent [])).isSome = true ∧
    batchesAt (receive "t0" strangeEvent []) "exec-A" = 0 ∧
    allResultsAt (receive "t0" strangeEvent []) "exec-A" = [] ∧
    finalSummaryAt (receive "t0" strangeEvent []) "exec-A" = none ∧
    eventId anonymousEvent = "unknown" := by
  have h := C10_callback "t0" strangeEvent []
  have h2 := C10_callback "t0" anonymousEvent []
  have hunrec := h.2.2.2.2 (by decide) (by decide) "exec-A"
  refine ⟨h.1, h.2.1, ?_, ?_, ?_, ?_, h2.2.2.2.1 rfl⟩
  · have := h.2.2.1
    simpa [eventId, strangeEvent, jsOrStr] using this
  · rw [hunrec.1]; rfl
  · rw [hunrec.2.1]; rfl
  · rw [hunrec.2.2]; rfl

end DeepSoul
